import Mathlib

/-!
Verification of the falling-sand simulation (Rust sources `lib.rs`,
`platform.rs`, `consts.rs`, `utils.rs`) against its natural-language
specification.

The Rust code is shallowly embedded:

* byte buffers (`&[u8]`) become `List Nat` whose entries are byte values;
  machine arithmetic (`x >> 3`, `x & 7`, masks) is kept literally on `Nat`;
* the velocity buffer (`&[SandVelocity]`, entries `i8`) becomes a
  `List SandVelocity` with `Int` components;
* `(f32::from(v) * C) as i8` (friction `0.7` and decay `0.9`) is modelled
  exactly: the `f32` literals `0.7` and `0.9` are `11744051 / 2^24` and
  `15099494 / 2^24`, the product is rounded to a 24-bit significand with
  round-to-nearest-even and then truncated toward zero with the saturating
  `as i8` conversion;
* grid dimensions (`ROWS`, `COLUMNS`, `PIXEL_WIDTH` from `consts.rs`) are a
  parameter `GridDims` so that small concrete grids can be executed; the
  device constants are `lcdDims`.
-/

/-- Grid dimension constants: `ROWS`, `COLUMNS` (bytes per row, including
padding), `PIXEL_WIDTH` from `consts.rs`. -/
structure GridDims where
  ROWS : Nat
  COLUMNS : Nat
  PIXEL_WIDTH : Nat

/-- The Playdate LCD dimensions: `LCD_ROWS = 240`, `COLUMNS = 2 + 400/8 = 52`,
`PIXEL_WIDTH = LCD_COLUMNS = 400`. -/
def lcdDims : GridDims := { ROWS := 240, COLUMNS := 52, PIXEL_WIDTH := 400 }

/-- The constant `BUFFER_SIZE = COLUMNS * ROWS` for the device grid. -/
def BUFFER_SIZE : Nat := lcdDims.COLUMNS * lcdDims.ROWS

/-- The `BIT_MASKS` lookup table from `lib.rs`. -/
def BIT_MASKS : List Nat := [0x80, 0x40, 0x20, 0x10, 0x08, 0x04, 0x02, 0x01]

/-- The `INV_BIT_MASKS` lookup table from `lib.rs`. -/
def INV_BIT_MASKS : List Nat := [0x7F, 0xBF, 0xDF, 0xEF, 0xF7, 0xFB, 0xFD, 0xFE]

/-- Function `get_pixel` from `lib.rs`: bounds-checked read of bit `x` of row `y`
(MSB-first within each byte). -/
def get_pixel (g : GridDims) (buffer : List Nat) (x y : Nat) : Bool :=
  if x ≥ g.PIXEL_WIDTH ∨ y ≥ g.ROWS then false
  else
    let index := y * g.COLUMNS + (x >>> 3)
    if index ≥ buffer.length then false
    else decide (buffer.getD index 0 &&& BIT_MASKS.getD (x &&& 7) 0 ≠ 0)

/-- Function `set_pixel` from `lib.rs`: bounds-checked write of bit `x` of row `y`;
out-of-range writes are silently dropped. -/
def set_pixel (g : GridDims) (buffer : List Nat) (x y : Nat) (value : Bool) :
    List Nat :=
  if x ≥ g.PIXEL_WIDTH ∨ y ≥ g.ROWS then buffer
  else
    let index := y * g.COLUMNS + (x >>> 3)
    if index ≥ buffer.length then buffer
    else
      let bit_idx := x &&& 7
      if value then
        buffer.set index (buffer.getD index 0 ||| BIT_MASKS.getD bit_idx 0)
      else
        buffer.set index (buffer.getD index 0 &&& INV_BIT_MASKS.getD bit_idx 0)

/-- The `SandVelocity` struct: per-cell momentum, `i8` components. -/
structure SandVelocity where
  vx : Int
  vy : Int

/-- Constructor `SandVelocity::default()`: zero velocity. -/
def SandVelocity.default : SandVelocity := { vx := 0, vy := 0 }

/-- Function `get_velocity` from `lib.rs`: bounds-checked read from the flat
`PIXEL_WIDTH * ROWS` velocity array. -/
def get_velocity (g : GridDims) (buffer : List SandVelocity) (x y : Nat) :
    SandVelocity :=
  if x ≥ g.PIXEL_WIDTH ∨ y ≥ g.ROWS then SandVelocity.default
  else
    let index := y * g.PIXEL_WIDTH + x
    if index ≥ buffer.length then SandVelocity.default
    else buffer.getD index SandVelocity.default

/-- Function `set_velocity` from `lib.rs`: bounds-checked write; out-of-range writes
are dropped. -/
def set_velocity (g : GridDims) (buffer : List SandVelocity) (x y : Nat)
    (velocity : SandVelocity) : List SandVelocity :=
  if x ≥ g.PIXEL_WIDTH ∨ y ≥ g.ROWS then buffer
  else
    let index := y * g.PIXEL_WIDTH + x
    if index ≥ buffer.length then buffer
    else buffer.set index velocity

/-- Function `is_platform` from `lib.rs`. -/
def is_platform (g : GridDims) (platform_buffer : List Nat) (x y : Nat) :
    Bool :=
  get_pixel g platform_buffer x y

/-- Function `is_sand` from `lib.rs`. -/
def is_sand (g : GridDims) (sand_buffer : List Nat) (x y : Nat) : Bool :=
  get_pixel g sand_buffer x y

/-- Function `is_solid` from `lib.rs`. -/
def is_solid (g : GridDims) (sand_buffer platform_buffer : List Nat)
    (x y : Nat) : Bool :=
  is_sand g sand_buffer x y || is_platform g platform_buffer x y

/-- Round-to-nearest-even of `a / 2 ^ k` (as an integer numerator scaled by
`2 ^ k`): the significand rounding step of an IEEE-754 binary32
multiplication. -/
def roundNearestEven (a k : Nat) : Nat :=
  if k = 0 then a
  else
    let q := a / 2 ^ k
    let r := a % 2 ^ k
    let h := 2 ^ (k - 1)
    if h < r then q + 1 else if r < h then q else if q % 2 = 0 then q else q + 1

/-- Saturating `as i8` on an already-truncated integer value. -/
def as_i8_sat (t : Int) : Int := max (-128) (min 127 t)

/-- Fuel-driven floor of the base-2 logarithm (structurally recursive so
that it evaluates inside the kernel). -/
def log2floor (fuel n : Nat) : Nat :=
  match fuel with
  | 0 => 0
  | fuel + 1 => if 2 ≤ n then log2floor fuel (n / 2) + 1 else 0

/-- Exact model of `(f32::from(v) * c) as i8` where the `f32` constant `c`
equals `m / 2 ^ 24` (with `2 ^ 23 ≤ m < 2 ^ 24`): the exact product
`|v| * m / 2 ^ 24` is rounded to a 24-bit significand (round to nearest,
ties to even), truncated toward zero, signed, and saturated to `i8`.
The conversion `f32::from(v)` of an `i8` and the final product's exponent
range are exact in binary32, so for `i8` inputs this is bit-faithful. -/
def f32_scale_trunc (m : Nat) (v : Int) : Int :=
  let a := v.natAbs * m
  let e := log2floor a a
  let t : Nat :=
    if a < 2 ^ 24 then 0
    else roundNearestEven a (e - 23) * 2 ^ (e - 23) / 2 ^ 24
  as_i8_sat (if v < 0 then -(t : Int) else (t : Int))

/-- Model of `(f32::from(v) * 0.7) as i8` — the horizontal-friction step;
`(0.7 : f32) = 11744051 / 2 ^ 24`. -/
def mul_0_7 (v : Int) : Int := f32_scale_trunc 11744051 v

/-- Model of `(f32::from(v) * 0.9) as i8` — the velocity-decay step;
`(0.9 : f32) = 15099494 / 2 ^ 24`. -/
def mul_0_9 (v : Int) : Int := f32_scale_trunc 15099494 v

/-- The `Platform` struct from `platform.rs` / `lib.rs`. -/
structure Platform where
  x : Nat
  y : Nat
  angle : Nat
  prev_angle : Nat

/-- Method `Platform::rotation_delta` from `platform.rs` (lines 40-49) and `lib.rs`
(lines 61-70): signed difference of `angle` and `prev_angle`, folded into
range by two sequential conditional corrections. -/
def Platform.rotation_delta (p : Platform) : Int :=
  let delta : Int := (p.angle : Int) - (p.prev_angle : Int)
  let delta := if delta > 180 then delta - 360 else delta
  if delta < -180 then delta + 360 else delta

/-- The mutable state threaded through one simulation pass: the sand
bit-plane, the velocity array and the per-row change mask. -/
structure SimState where
  sand_buffer : List Nat
  velocity_buffer : List SandVelocity
  changed_rows : List Bool

/-- Function `update_pixel_with_velocity` from `lib.rs` (lines 404-462): the per-cell
gravity rule.  Tries straight down, then down-left, then down-right; a move
clears the source bit, sets the destination bit and carries the velocity
(with a `∓1` drift bias clamped to `±10` on diagonal moves).  Returns the
updated state and whether the particle fell. -/
def update_pixel_with_velocity (g : GridDims) (platform_buffer : List Nat)
    (s : SimState) (x y : Nat) : SimState × Bool :=
  if is_sand g s.sand_buffer x y = false then (s, false)
  else if y ≥ g.ROWS - 1 then (s, false)
  else if is_solid g s.sand_buffer platform_buffer x (y + 1) = false then
    let sand := set_pixel g s.sand_buffer x y false
    let sand := set_pixel g sand x (y + 1) true
    let velocity := get_velocity g s.velocity_buffer x y
    let vel := set_velocity g s.velocity_buffer x y SandVelocity.default
    let vel := set_velocity g vel x (y + 1) velocity
    ({ s with sand_buffer := sand, velocity_buffer := vel }, true)
  else if 0 < x ∧ is_solid g s.sand_buffer platform_buffer (x - 1) (y + 1) = false then
    let sand := set_pixel g s.sand_buffer x y false
    let sand := set_pixel g sand (x - 1) (y + 1) true
    let velocity := get_velocity g s.velocity_buffer x y
    let velocity := { velocity with vx := max (velocity.vx - 1) (-10) }
    let vel := set_velocity g s.velocity_buffer x y SandVelocity.default
    let vel := set_velocity g vel (x - 1) (y + 1) velocity
    ({ s with sand_buffer := sand, velocity_buffer := vel }, true)
  else if x < g.PIXEL_WIDTH - 1 ∧ is_solid g s.sand_buffer platform_buffer (x + 1) (y + 1) = false then
    let sand := set_pixel g s.sand_buffer x y false
    let sand := set_pixel g sand (x + 1) (y + 1) true
    let velocity := get_velocity g s.velocity_buffer x y
    let velocity := { velocity with vx := min (velocity.vx + 1) 10 }
    let vel := set_velocity g s.velocity_buffer x y SandVelocity.default
    let vel := set_velocity g vel (x + 1) (y + 1) velocity
    ({ s with sand_buffer := sand, velocity_buffer := vel }, true)
  else (s, false)

/-- The horizontal-velocity move attempt of the `update_sand_with_velocity`
loop body (`lib.rs` lines 356-382), for a cell already known to hold sand:
when `|vx| > 2`, try one step toward the sign of `vx`; on success clear the
source bit, set the target bit, zero the source velocity, write the
friction-damped velocity (`vx * 0.7`) at the target and mark row `y`.
Returns the state, the local `velocity` variable after the branch, and the
`moved` flag. -/
def horizontal_move (g : GridDims) (platform_buffer : List Nat) (s : SimState)
    (velocity : SandVelocity) (x y : Nat) : SimState × SandVelocity × Bool :=
  if 2 < velocity.vx.natAbs then
    let target_x :=
      if 0 < velocity.vx then
        if x + 1 < g.PIXEL_WIDTH then x + 1 else x
      else if 0 < x then x - 1 else x
    if target_x ≠ x ∧ is_solid g s.sand_buffer platform_buffer target_x y = false then
      let sand := set_pixel g s.sand_buffer x y false
      let sand := set_pixel g sand target_x y true
      let vel := set_velocity g s.velocity_buffer x y SandVelocity.default
      let velocity2 := { velocity with vx := mul_0_7 velocity.vx }
      let vel := set_velocity g vel target_x y velocity2
      let changed := s.changed_rows.set y true
      (⟨sand, vel, changed⟩, velocity2, true)
    else (s, velocity, false)
  else (s, velocity, false)

/-- The gravity attempt of the loop body (`lib.rs` lines 385-391): run the
per-cell gravity rule and mark row `y` when the particle fell. -/
def fall_step (g : GridDims) (platform_buffer : List Nat) (s : SimState)
    (x y : Nat) : SimState :=
  let r := update_pixel_with_velocity g platform_buffer s x y
  if r.2 then { r.1 with changed_rows := r.1.changed_rows.set y true }
  else r.1

/-- The velocity-decay tail of the loop body (`lib.rs` lines 394-398):
when the local `velocity` variable is non-zero, write its `0.9`-decayed
value back to `(x, y)`. -/
def decay_write (g : GridDims) (s : SimState) (velocity : SandVelocity)
    (x y : Nat) : SimState :=
  if 0 < velocity.vx.natAbs ∨ 0 < velocity.vy.natAbs then
    let decayed : SandVelocity :=
      { vx := mul_0_9 velocity.vx, vy := mul_0_9 velocity.vy }
    { s with velocity_buffer := set_velocity g s.velocity_buffer x y decayed }
  else s

/-- The loop body of `update_sand_with_velocity` (`lib.rs` lines 347-399)
for one cell `(x, y)`: horizontal velocity move (when `|vx| > 2`) with
friction `0.7`, otherwise the gravity rule, then multiplicative velocity
decay `0.9` written back to `(x, y)`. -/
def sand_cell_step (g : GridDims) (platform_buffer : List Nat) (s : SimState)
    (x y : Nat) : SimState :=
  if is_sand g s.sand_buffer x y = false then s
  else
    let velocity := get_velocity g s.velocity_buffer x y
    let hres := horizontal_move g platform_buffer s velocity x y
    let s2 := if hres.2.2 then hres.1 else fall_step g platform_buffer hres.1 x y
    decay_write g s2 hres.2.1 x y

/-- One row of a pass: `for x in 0..PIXEL_WIDTH`. -/
def sand_row_step (g : GridDims) (platform_buffer : List Nat) (s : SimState)
    (y : Nat) : SimState :=
  (List.range g.PIXEL_WIDTH).foldl
    (fun s x => sand_cell_step g platform_buffer s x y) s

/-- Function `update_sand_with_velocity` from `lib.rs` (lines 339-401): one full
automaton pass, rows from bottom (`ROWS - 1`) to top, columns left to
right. -/
def update_sand_with_velocity (g : GridDims) (platform_buffer : List Nat)
    (s : SimState) : SimState :=
  ((List.range g.ROWS).reverse).foldl (sand_row_step g platform_buffer) s

/-- The `steps` selection in `process_input` (`lib.rs` lines 662-667):
number of simulation passes as a function of the cached screen density. -/
def density_steps (screen_density : Nat) : Nat :=
  if screen_density ≤ 25 then 2
  else if screen_density ≤ 50 then 2
  else if screen_density ≤ 75 then 1
  else 1

/-- Function `update_screen_efficiently` from `lib.rs` (lines 511-527), modelled as
the list of `(start, end)` arguments passed to `mark_updated_rows`, in
order: a linear scan opening a batch on a false-to-true transition and
closing it on a true-to-false transition, with a still-open batch closed at
the end of the grid. -/
def update_screen_efficiently (changed_rows : List Bool) : List (Nat × Nat) :=
  let scan := changed_rows.enum.foldl
    (fun (acc : List (Nat × Nat) × Option Nat) (p : Nat × Bool) =>
      match acc, p with
      | (calls, none), (y, changed) =>
          if changed then (calls, some y) else (calls, none)
      | (calls, some start), (y, changed) =>
          if changed then (calls, some start)
          else (calls ++ [(start, y)], none))
    ([], none)
  match scan with
  | (calls, some start) => calls ++ [(start, changed_rows.length)]
  | (calls, none) => calls

/-- Number of set low bits (bit positions `0..7`) of a byte value. -/
def bitCountByte (n : Nat) : Nat :=
  (Finset.range 8).sum (fun j => if n.testBit j then 1 else 0)
/-- Total number of set bits in a packed buffer. -/
def bitCount (buffer : List Nat) : Nat := (buffer.map bitCountByte).sum
/-- A 8×2 test grid (one byte per row). -/
def grid8 : GridDims := { ROWS := 2, COLUMNS := 1, PIXEL_WIDTH := 8 }

/-- A velocity buffer for `grid8` whose only nonzero entry is `vx = 5` at
cell `(5, 1)` (bottom row). -/
def velBottom : List SandVelocity :=
  (List.replicate 16 SandVelocity.default).set 13 { vx := 5, vy := 0 }

/-- A `grid8` state with a single particle at `(5, 1)` — the bottom row —
carrying horizontal velocity `5`. -/
def stBottom : SimState :=
  { sand_buffer := [0x00, 0x04]
    velocity_buffer := velBottom
    changed_rows := [false, false] }
/-- The concrete device-grid witness state: one bottom-row particle at
`(3, 239)` over a zeroed sand plane, an empty (all-default) velocity
buffer and a cleared change mask. -/
def bottomWitnessState : SimState :=
  { sand_buffer :=
      set_pixel lcdDims (List.replicate BUFFER_SIZE 0) 3 (lcdDims.ROWS - 1) true
    velocity_buffer := []
    changed_rows := List.replicate 240 false }
/-- A 20-pixel-wide scenario grid with 4 rows (3 bytes per row). -/
def scenarioDims : GridDims := { ROWS := 4, COLUMNS := 3, PIXEL_WIDTH := 20 }

/-- Scenario state: a lone particle at `(10, 0)`, zero velocities, clear
change mask. -/
def scenarioState : SimState :=
  { sand_buffer := set_pixel scenarioDims (List.replicate 12 0) 10 0 true
    velocity_buffer := List.replicate 80 SandVelocity.default
    changed_rows := List.replicate 4 false }

/-- Scenario obstacle plane: solid cells at `(9, 1)` and `(10, 1)`,
leaving `(11, 1)` free. -/
def scenarioBlocked : List Nat :=
  set_pixel scenarioDims
    (set_pixel scenarioDims (List.replicate 12 0) 9 1 true) 10 1 true
/-- Rust `f32::clamp(lo, hi)` on the rational model of a float value. -/
def clampQ (q lo hi : ℚ) : ℚ := if q < lo then lo else if hi < q then hi else q

/-- Rust `as i8` rounding of a clamped float value: truncation toward
zero (the clamp keeps the value inside the `i8` range, so no saturation
arises). -/
def truncQ (q : ℚ) : Int := if q < 0 then -(Int.floor (-q)) else Int.floor q

/-- The iteration domain `-force_radius..force_radius` of the inner loops
of `apply_platform_forces` (`force_radius = 8`): the integers `-8, …, 7`. -/
def force_offsets : List Int := (List.range 16).map (fun k => (k : Int) - 8)

/-- Function `apply_platform_forces` from `lib.rs` (lines 254-336).  The
floating-point parts are abstracted into parameters and the theorem below
is proved for all of their values, hence in particular for the actual
`libm`/`f32` behaviour:

* `linePts platform i` models the rounded position
  `(roundf(px), roundf(py))` of the `i`-th step of the `f32` line walk
  from the platform anchor along `(cos angle, sin angle)`;
* `perpF platform force_strength` models the pair
  `(perpendicular_x, perpendicular_y)` computed from `sinf`/`cosf`, the
  rotation delta and the integer `force_strength`;
* `addF v p` models the `f32` sum `f32::from(v) + p`.

Everything else — the rotation-delta early exit, the bounds checks, the
integer distance test `dist_sq ≤ force_radius²`, the integer
`force_strength` division, the clamp to `[-20, 20]` and the `as i8` cast,
and the velocity-buffer writes — follows the source exactly. -/
def apply_platform_forces (g : GridDims)
    (linePts : Platform → Nat → Int × Int)
    (perpF : Platform → Int → ℚ × ℚ)
    (addF : Int → ℚ → ℚ)
    (sand_buffer : List Nat) (velocity_buffer : List SandVelocity)
    (platforms : List Platform) : List Nat × List SandVelocity :=
  platforms.foldl (fun st platform =>
    let rotation_delta := platform.rotation_delta
    if rotation_delta.natAbs < 1 then st
    else
      (List.range 30).foldl (fun st i =>
        let pp := linePts platform i
        if 0 ≤ pp.1 ∧ 0 ≤ pp.2 ∧ pp.1 < (g.PIXEL_WIDTH : Int) ∧
            pp.2 < (g.ROWS : Int) then
          force_offsets.foldl (fun st dy =>
            force_offsets.foldl (fun st dx =>
              let sand_x := pp.1 + dx
              let sand_y := pp.2 + dy
              if 0 ≤ sand_x ∧ 0 ≤ sand_y ∧ sand_x < (g.PIXEL_WIDTH : Int) ∧
                  sand_y < (g.ROWS : Int) ∧
                  is_sand g st.1 sand_x.toNat sand_y.toNat = true then
                let dist_sq := dx * dx + dy * dy
                if dist_sq ≤ 8 * 8 then
                  let force_strength := (8 * 8 - dist_sq) / 4
                  let perp := perpF platform force_strength
                  let velocity := get_velocity g st.2 sand_x.toNat sand_y.toNat
                  let vx := truncQ (clampQ (addF velocity.vx perp.1) (-20) 20)
                  let vy := truncQ (clampQ (addF velocity.vy perp.2) (-20) 20)
                  (st.1, set_velocity g st.2 sand_x.toNat sand_y.toNat
                    { vx := vx, vy := vy })
                else st
              else st) st) st
        else st) st)
    (sand_buffer, velocity_buffer)

/-- A cell `(x, y)` is within the force radius of a sampled in-bounds line
point of some rotating platform of the list. -/
def nearRotatingLine (g : GridDims) (linePts : Platform → Nat → Int × Int)
    (platforms : List Platform) (x y : Nat) : Prop :=
  ∃ platform ∈ platforms, 1 ≤ platform.rotation_delta.natAbs ∧
    ∃ i < 30,
      (0 ≤ (linePts platform i).1 ∧ 0 ≤ (linePts platform i).2 ∧
        (linePts platform i).1 < (g.PIXEL_WIDTH : Int) ∧
        (linePts platform i).2 < (g.ROWS : Int)) ∧
      ((x : Int) - (linePts platform i).1) * ((x : Int) - (linePts platform i).1)
        + ((y : Int) - (linePts platform i).2) * ((y : Int) - (linePts platform i).2)
        ≤ 8 * 8
/-- The invariant carried through the force-propagation folds: the sand
plane is untouched and every velocity cell is either unchanged or belongs
to a sand cell near a rotating platform line and holds clamped values. -/
def forcesInv (g : GridDims) (linePts : Platform → Nat → Int × Int)
    (platforms : List Platform) (sand_buffer : List Nat)
    (velocity_buffer : List SandVelocity)
    (st : List Nat × List SandVelocity) : Prop :=
  st.1 = sand_buffer ∧
  ∀ x y : Nat,
    get_velocity g st.2 x y = get_velocity g velocity_buffer x y ∨
    (is_sand g sand_buffer x y = true ∧
      nearRotatingLine g linePts platforms x y ∧
      -20 ≤ (get_velocity g st.2 x y).vx ∧
      (get_velocity g st.2 x y).vx ≤ 20 ∧
      -20 ≤ (get_velocity g st.2 x y).vy ∧
      (get_velocity g st.2 x y).vy ≤ 20)

/-! ## Helper lemmas: bit-plane store -/

/-- The masks table holds the single-bit masks, MSB first. -/
theorem BIT_MASKS_getD : ∀ k < 8, BIT_MASKS.getD k 0 = 2 ^ (7 - k) := by decide

/-- The inverse masks are the one-byte complements of the masks. -/
theorem INV_BIT_MASKS_getD :
    ∀ k < 8, INV_BIT_MASKS.getD k 0 = (2 ^ 8 - 1) ^^^ 2 ^ (7 - k) := by decide

theorem getD_set_self {α : Type} (l : List α) {i : Nat} (a d : α)
    (h : i < l.length) : (l.set i a).getD i d = a := by
  simp [List.getD_eq_getElem?_getD, List.getElem?_set_self h]

theorem getD_set_ne {α : Type} (l : List α) {i j : Nat} (a d : α)
    (h : i ≠ j) : (l.set i a).getD j d = l.getD j d := by
  simp [List.getD_eq_getElem?_getD, List.getElem?_set_ne h]

/-- In-bounds `get_pixel` reads the MSB-first bit of the addressed byte. -/
theorem get_pixel_eq_testBit (g : GridDims) (b : List Nat) (x y : Nat)
    (hx : x < g.PIXEL_WIDTH) (hy : y < g.ROWS)
    (hi : y * g.COLUMNS + x / 8 < b.length) :
    get_pixel g b x y
      = (b.getD (y * g.COLUMNS + x / 8) 0).testBit (7 - x % 8) := by
  simp only [get_pixel, Nat.shiftRight_eq_div_pow]
  rw [if_neg (by omega), if_neg (by simpa using hi)]
  rw [show x &&& 7 = x % 8 from Nat.and_pow_two_sub_one_eq_mod x 3]
  rw [BIT_MASKS_getD _ (by omega)]
  rw [Nat.and_two_pow]
  rcases h : (b.getD (y * g.COLUMNS + x / 8) 0).testBit (7 - x % 8) <;>
    simp [h]

/-- In-bounds `set_pixel true` ORs the mask into the addressed byte. -/
theorem set_pixel_true_eq (g : GridDims) (b : List Nat) (x y : Nat)
    (hx : x < g.PIXEL_WIDTH) (hy : y < g.ROWS)
    (hi : y * g.COLUMNS + x / 8 < b.length) :
    set_pixel g b x y true
      = b.set (y * g.COLUMNS + x / 8)
          (b.getD (y * g.COLUMNS + x / 8) 0 ||| 2 ^ (7 - x % 8)) := by
  simp only [set_pixel, Nat.shiftRight_eq_div_pow]
  rw [if_neg (by omega), if_neg (by simpa using hi)]
  rw [show x &&& 7 = x % 8 from Nat.and_pow_two_sub_one_eq_mod x 3]
  rw [BIT_MASKS_getD _ (by omega)]
  simp

/-- In-bounds `set_pixel false` ANDs the inverse mask into the byte. -/
theorem set_pixel_false_eq (g : GridDims) (b : List Nat) (x y : Nat)
    (hx : x < g.PIXEL_WIDTH) (hy : y < g.ROWS)
    (hi : y * g.COLUMNS + x / 8 < b.length) :
    set_pixel g b x y false
      = b.set (y * g.COLUMNS + x / 8)
          (b.getD (y * g.COLUMNS + x / 8) 0 &&& ((2 ^ 8 - 1) ^^^ 2 ^ (7 - x % 8))) := by
  simp only [set_pixel, Nat.shiftRight_eq_div_pow]
  rw [if_neg (by omega), if_neg (by simpa using hi)]
  rw [show x &&& 7 = x % 8 from Nat.and_pow_two_sub_one_eq_mod x 3]
  rw [INV_BIT_MASKS_getD _ (by omega)]
  simp

/-- A `set_pixel` on an out-of-range coordinate leaves the buffer
unchanged. -/
theorem set_pixel_oob (g : GridDims) (b : List Nat) (x y : Nat) (v : Bool)
    (h : x ≥ g.PIXEL_WIDTH ∨ y ≥ g.ROWS) : set_pixel g b x y v = b := by
  simp only [set_pixel]
  rw [if_pos h]

/-- Reading with `get_pixel` at an out-of-range coordinate returns `false`. -/
theorem get_pixel_oob (g : GridDims) (b : List Nat) (x y : Nat)
    (h : x ≥ g.PIXEL_WIDTH ∨ y ≥ g.ROWS) : get_pixel g b x y = false := by
  simp only [get_pixel]
  rw [if_pos h]

/-- Writing with `set_pixel` preserves the buffer length. -/
theorem length_set_pixel (g : GridDims) (b : List Nat) (x y : Nat) (v : Bool) :
    (set_pixel g b x y v).length = b.length := by
  simp only [set_pixel]
  split
  · rfl
  · split
    · rfl
    · split <;> simp

/-- A successful `get_pixel … = true` forces the coordinate and the byte
index in range and exposes the tested bit. -/
theorem get_pixel_true_elim (g : GridDims) (b : List Nat) (x y : Nat)
    (h : get_pixel g b x y = true) :
    x < g.PIXEL_WIDTH ∧ y < g.ROWS ∧ y * g.COLUMNS + x / 8 < b.length ∧
      (b.getD (y * g.COLUMNS + x / 8) 0).testBit (7 - x % 8) = true := by
  by_cases hb : x < g.PIXEL_WIDTH ∧ y < g.ROWS
  · by_cases hi : y * g.COLUMNS + x / 8 < b.length
    · refine ⟨hb.1, hb.2, hi, ?_⟩
      rw [← get_pixel_eq_testBit g b x y hb.1 hb.2 hi]
      exact h
    · exfalso
      simp only [get_pixel, Nat.shiftRight_eq_div_pow] at h
      rw [if_neg (by omega), if_pos (by omega)] at h
      exact Bool.false_ne_true h
  · exfalso
    rw [get_pixel_oob g b x y (by omega)] at h
    exact Bool.false_ne_true h

/-- Reading back the bit just written returns the written value
(the round-trip half of the packing contract). -/
theorem get_set_pixel_same (g : GridDims) (b : List Nat) (x y : Nat) (v : Bool)
    (hx : x < g.PIXEL_WIDTH) (hy : y < g.ROWS)
    (hi : y * g.COLUMNS + x / 8 < b.length) :
    get_pixel g (set_pixel g b x y v) x y = v := by
  have h8 : 7 - x % 8 < 8 := by omega
  cases v
  · rw [set_pixel_false_eq g b x y hx hy hi]
    rw [get_pixel_eq_testBit g _ x y hx hy (by simpa using hi)]
    rw [getD_set_self _ _ _ hi]
    rw [Nat.testBit_and, Nat.testBit_xor, Nat.testBit_two_pow_sub_one,
      Nat.testBit_two_pow]
    simp [h8]
  · rw [set_pixel_true_eq g b x y hx hy hi]
    rw [get_pixel_eq_testBit g _ x y hx hy (by simpa using hi)]
    rw [getD_set_self _ _ _ hi]
    rw [Nat.testBit_or, Nat.testBit_two_pow]
    simp

/-- Rows are disjoint in the packed layout: two distinct in-range
coordinates address either different bytes or different bits. -/
theorem packed_index_inj (g : GridDims) (hW : g.PIXEL_WIDTH ≤ 8 * g.COLUMNS)
    (x y x' y' : Nat) (hx : x < g.PIXEL_WIDTH) (hx' : x' < g.PIXEL_WIDTH)
    (hidx : y * g.COLUMNS + x / 8 = y' * g.COLUMNS + x' / 8) :
    y = y' ∧ x / 8 = x' / 8 := by
  have hc : x / 8 < g.COLUMNS := by omega
  have hc' : x' / 8 < g.COLUMNS := by omega
  have hyy : y = y' := by
    rcases Nat.lt_trichotomy y y' with h | h | h
    · exfalso
      have h1 : (y + 1) * g.COLUMNS ≤ y' * g.COLUMNS :=
        Nat.mul_le_mul_right _ h
      have h2 : (y + 1) * g.COLUMNS = y * g.COLUMNS + g.COLUMNS := by ring
      omega
    · exact h
    · exfalso
      have h1 : (y' + 1) * g.COLUMNS ≤ y * g.COLUMNS :=
        Nat.mul_le_mul_right _ h
      have h2 : (y' + 1) * g.COLUMNS = y' * g.COLUMNS + g.COLUMNS := by ring
      omega
  subst hyy
  exact ⟨rfl, by omega⟩

/-- Writing one bit never perturbs the value read at any other coordinate
(the frame half of the packing contract).  Needs the row stride to cover
the pixel width, which holds for every grid used here. -/
theorem get_set_pixel_ne (g : GridDims) (hW : g.PIXEL_WIDTH ≤ 8 * g.COLUMNS)
    (b : List Nat) (x y : Nat) (v : Bool) (x' y' : Nat)
    (hne : x ≠ x' ∨ y ≠ y') :
    get_pixel g (set_pixel g b x y v) x' y' = get_pixel g b x' y' := by
  by_cases hw : x < g.PIXEL_WIDTH ∧ y < g.ROWS
  · by_cases hi : y * g.COLUMNS + x / 8 < b.length
    · by_cases hr : x' < g.PIXEL_WIDTH ∧ y' < g.ROWS
      · by_cases hj : y' * g.COLUMNS + x' / 8 < b.length
        · rw [get_pixel_eq_testBit g b x' y' hr.1 hr.2 hj]
          by_cases hidx : y * g.COLUMNS + x / 8 = y' * g.COLUMNS + x' / 8
          · obtain ⟨hyy, hdd⟩ :=
              packed_index_inj g hW x y x' y' hw.1 hr.1 hidx
            have hxx : x ≠ x' := by
              rcases hne with h | h
              · exact h
              · exact absurd hyy h
            have hmm : x % 8 ≠ x' % 8 := by omega
            have hbb : 7 - x % 8 ≠ 7 - x' % 8 := by omega
            cases v
            · rw [set_pixel_false_eq g b x y hw.1 hw.2 hi,
                get_pixel_eq_testBit g _ x' y' hr.1 hr.2 (by simpa using hj),
                ← hidx, getD_set_self _ _ _ hi]
              rw [Nat.testBit_and, Nat.testBit_xor, Nat.testBit_two_pow_sub_one,
                Nat.testBit_two_pow]
              have h8 : 7 - x' % 8 < 8 := by omega
              simp [hbb, h8, hidx]
            · rw [set_pixel_true_eq g b x y hw.1 hw.2 hi,
                get_pixel_eq_testBit g _ x' y' hr.1 hr.2 (by simpa using hj),
                ← hidx, getD_set_self _ _ _ hi]
              rw [Nat.testBit_or, Nat.testBit_two_pow]
              simp [hbb, hidx]
          · cases v
            · rw [set_pixel_false_eq g b x y hw.1 hw.2 hi,
                get_pixel_eq_testBit g _ x' y' hr.1 hr.2 (by simpa using hj),
                getD_set_ne _ _ _ hidx]
            · rw [set_pixel_true_eq g b x y hw.1 hw.2 hi,
                get_pixel_eq_testBit g _ x' y' hr.1 hr.2 (by simpa using hj),
                getD_set_ne _ _ _ hidx]
        · have hlen : (set_pixel g b x y v).length = b.length :=
            length_set_pixel g b x y v
          simp only [get_pixel, Nat.shiftRight_eq_div_pow]
          have hg : ¬(x' ≥ g.PIXEL_WIDTH ∨ y' ≥ g.ROWS) := by omega
          have h2 : y' * g.COLUMNS + x' / 8 ≥ b.length := by omega
          rw [if_neg hg, if_neg hg, hlen, if_pos h2, if_pos h2]
      · rw [get_pixel_oob g _ x' y' (by omega),
          get_pixel_oob g b x' y' (by omega)]
    · simp only [set_pixel, Nat.shiftRight_eq_div_pow]
      rw [if_neg (by omega), if_pos (by omega)]
  · rw [set_pixel_oob g b x y v (by omega)]

/-- Setting some bit to `true` preserves every bit already `true`. -/
theorem get_set_pixel_true_mono (g : GridDims)
    (hW : g.PIXEL_WIDTH ≤ 8 * g.COLUMNS) (b : List Nat) (x y x' y' : Nat)
    (h : get_pixel g b x' y' = true) :
    get_pixel g (set_pixel g b x y true) x' y' = true := by
  by_cases heq : x = x' ∧ y = y'
  · obtain ⟨h1, h2, h3, _⟩ := get_pixel_true_elim g b x' y' h
    rw [heq.1, heq.2]
    exact get_set_pixel_same g b x' y' true h1 h2 h3
  · rw [get_set_pixel_ne g hW b x y true x' y' (by tauto)]
    exact h

/-! ## Helper lemmas: velocity buffer -/

/-- Writing with `set_velocity` preserves the buffer length. -/
theorem length_set_velocity (g : GridDims) (v : List SandVelocity)
    (x y : Nat) (w : SandVelocity) :
    (set_velocity g v x y w).length = v.length := by
  simp only [set_velocity]
  split
  · rfl
  · split <;> simp

/-- The flat velocity addressing is injective on in-range columns. -/
theorem flat_index_inj (W : Nat) (x y x' y' : Nat) (hx : x < W) (hx' : x' < W)
    (h : y * W + x = y' * W + x') : x = x' ∧ y = y' := by
  have hyy : y = y' := by
    rcases Nat.lt_trichotomy y y' with hlt | he | hlt
    · exfalso
      have h1 : (y + 1) * W ≤ y' * W := Nat.mul_le_mul_right _ hlt
      have h2 : (y + 1) * W = y * W + W := by ring
      omega
    · exact he
    · exfalso
      have h1 : (y' + 1) * W ≤ y * W := Nat.mul_le_mul_right _ hlt
      have h2 : (y' + 1) * W = y' * W + W := by ring
      omega
  subst hyy
  exact ⟨by omega, rfl⟩

/-- In-bounds `set_velocity` is a plain list update. -/
theorem set_velocity_eq (g : GridDims) (v : List SandVelocity) (x y : Nat)
    (w : SandVelocity) (hx : x < g.PIXEL_WIDTH) (hy : y < g.ROWS)
    (hi : y * g.PIXEL_WIDTH + x < v.length) :
    set_velocity g v x y w = v.set (y * g.PIXEL_WIDTH + x) w := by
  simp only [set_velocity]
  rw [if_neg (by omega), if_neg (by simpa using hi)]

/-- A `set_velocity` that is out of range or beyond the buffer is a no-op. -/
theorem set_velocity_noop (g : GridDims) (v : List SandVelocity) (x y : Nat)
    (w : SandVelocity)
    (h : x ≥ g.PIXEL_WIDTH ∨ y ≥ g.ROWS ∨ ¬ y * g.PIXEL_WIDTH + x < v.length) :
    set_velocity g v x y w = v := by
  simp only [set_velocity]
  by_cases hg : x ≥ g.PIXEL_WIDTH ∨ y ≥ g.ROWS
  · rw [if_pos hg]
  · rw [if_neg hg, if_pos (by omega)]

/-- In-bounds `get_velocity` is a plain list read. -/
theorem get_velocity_eq (g : GridDims) (v : List SandVelocity) (x y : Nat)
    (hx : x < g.PIXEL_WIDTH) (hy : y < g.ROWS)
    (hi : y * g.PIXEL_WIDTH + x < v.length) :
    get_velocity g v x y = v.getD (y * g.PIXEL_WIDTH + x) SandVelocity.default := by
  simp only [get_velocity]
  rw [if_neg (by omega), if_neg (by simpa using hi)]

/-- A `get_velocity` that is out of range or beyond the buffer returns the
default. -/
theorem get_velocity_default (g : GridDims) (v : List SandVelocity) (x y : Nat)
    (h : x ≥ g.PIXEL_WIDTH ∨ y ≥ g.ROWS ∨ ¬ y * g.PIXEL_WIDTH + x < v.length) :
    get_velocity g v x y = SandVelocity.default := by
  simp only [get_velocity]
  by_cases hg : x ≥ g.PIXEL_WIDTH ∨ y ≥ g.ROWS
  · rw [if_pos hg]
  · rw [if_neg hg, if_pos (by omega)]

/-- A velocity write never perturbs the value read at another coordinate. -/
theorem get_set_velocity_ne (g : GridDims) (v : List SandVelocity)
    (x y : Nat) (w : SandVelocity) (x' y' : Nat) (hne : x ≠ x' ∨ y ≠ y') :
    get_velocity g (set_velocity g v x y w) x' y' = get_velocity g v x' y' := by
  by_cases hw : x < g.PIXEL_WIDTH ∧ y < g.ROWS ∧ y * g.PIXEL_WIDTH + x < v.length
  · rw [set_velocity_eq g v x y w hw.1 hw.2.1 hw.2.2]
    by_cases hr : x' < g.PIXEL_WIDTH ∧ y' < g.ROWS ∧ y' * g.PIXEL_WIDTH + x' < v.length
    · have hidx : y * g.PIXEL_WIDTH + x ≠ y' * g.PIXEL_WIDTH + x' := by
        intro hcon
        obtain ⟨h1, h2⟩ := flat_index_inj g.PIXEL_WIDTH x y x' y' hw.1 hr.1 hcon
        tauto
      rw [get_velocity_eq g _ x' y' hr.1 hr.2.1 (by simpa using hr.2.2),
        get_velocity_eq g v x' y' hr.1 hr.2.1 hr.2.2]
      exact getD_set_ne _ _ _ hidx
    · rw [get_velocity_default g _ x' y' (by
        rcases Decidable.em (x' < g.PIXEL_WIDTH) with h | h
        · rcases Decidable.em (y' < g.ROWS) with h2 | h2
          · right; right; simpa using (by tauto : ¬ y' * g.PIXEL_WIDTH + x' < v.length)
          · right; left; omega
        · left; omega),
        get_velocity_default g v x' y' (by
        rcases Decidable.em (x' < g.PIXEL_WIDTH) with h | h
        · rcases Decidable.em (y' < g.ROWS) with h2 | h2
          · right; right; tauto
          · right; left; omega
        · left; omega)]
  · rw [set_velocity_noop g v x y w (by
      rcases Decidable.em (x < g.PIXEL_WIDTH) with h | h
      · rcases Decidable.em (y < g.ROWS) with h2 | h2
        · right; right; tauto
        · right; left; omega
      · left; omega)]

/-- Reading back a just-written in-bounds velocity returns the written
value. -/
theorem get_set_velocity_same (g : GridDims) (v : List SandVelocity)
    (x y : Nat) (w : SandVelocity) (hx : x < g.PIXEL_WIDTH) (hy : y < g.ROWS)
    (hi : y * g.PIXEL_WIDTH + x < v.length) :
    get_velocity g (set_velocity g v x y w) x y = w := by
  rw [set_velocity_eq g v x y w hx hy hi,
    get_velocity_eq g _ x y hx hy (by simpa using hi)]
  exact getD_set_self _ _ _ hi

/-- Reading any coordinate of the empty velocity buffer gives the default. -/
theorem get_velocity_nil (g : GridDims) (x y : Nat) :
    get_velocity g [] x y = SandVelocity.default := by
  apply get_velocity_default
  right; right; simp


/-! ## Helper lemmas: folds -/

/-- An invariant preserved by every step of a left fold (with membership of
the step's element available) is preserved by the fold. -/
theorem foldl_inv_mem {α β : Type} (Inv : β → Prop) (f : β → α → β) :
    ∀ (l : List α) (b : β), (∀ c a, a ∈ l → Inv c → Inv (f c a)) →
      Inv b → Inv (List.foldl f b l) := by
  intro l
  induction l with
  | nil => intro b _ hb; simpa using hb
  | cons a l ih =>
      intro b hstep hb
      simp only [List.foldl_cons]
      exact ih (f b a) (fun c a' ha' hc => hstep c a' (List.mem_cons_of_mem _ ha') hc)
        (hstep b a (List.mem_cons_self _ _) hb)

/-! ## Helper lemmas: set-bit counting -/

/-- Exchanging one byte exchanges its bit count. -/
theorem bitCount_set (l : List Nat) : ∀ (i : Nat) (v : Nat), i < l.length →
    bitCount (l.set i v) + bitCountByte (l.getD i 0) = bitCount l + bitCountByte v := by
  induction l with
  | nil => intro i v h; simp at h
  | cons a l ih =>
      intro i v h
      cases i with
      | zero => simp [bitCount]; omega
      | succ i =>
          simp only [List.set_cons_succ, bitCount, List.map_cons, List.sum_cons,
            List.getD_cons_succ]
          have := ih i v (by simpa using h)
          simp only [bitCount] at this
          omega

/-- ORing a single-bit mask into a byte adds at most one set bit. -/
theorem bitCountByte_or_le (n j : Nat) :
    bitCountByte (n ||| 2 ^ j) ≤ bitCountByte n + 1 := by
  unfold bitCountByte
  have hpt : ∀ i ∈ Finset.range 8,
      (if (n ||| 2 ^ j).testBit i then 1 else 0)
        ≤ (if n.testBit i then 1 else 0) + (if j = i then 1 else 0) := by
    intro i _
    by_cases hij : j = i
    · have h1 : (if (n ||| 2 ^ j).testBit i then (1 : Nat) else 0) ≤ 1 := by
        split <;> omega
      have h2 : (if j = i then (1 : Nat) else 0) = 1 := if_pos hij
      omega
    · simp [Nat.testBit_or, Nat.testBit_two_pow, hij]
  calc (Finset.range 8).sum (fun i => if (n ||| 2 ^ j).testBit i then 1 else 0)
      ≤ (Finset.range 8).sum
          (fun i => (if n.testBit i then 1 else 0) + (if j = i then 1 else 0)) :=
        Finset.sum_le_sum hpt
    _ = (Finset.range 8).sum (fun i => if n.testBit i then 1 else 0)
          + (Finset.range 8).sum (fun i => if j = i then 1 else 0) :=
        Finset.sum_add_distrib
    _ ≤ (Finset.range 8).sum (fun i => if n.testBit i then 1 else 0) + 1 := by
        have := Finset.sum_ite_eq (Finset.range 8) j (fun _ => (1 : Nat))
        rw [this]
        split <;> omega

/-- Every low bit of the byte `255` is set. -/
theorem testBit_255 (i : Nat) (h : i < 8) : Nat.testBit 255 i = true := by
  rw [show (255 : Nat) = 2 ^ 8 - 1 by norm_num, Nat.testBit_two_pow_sub_one]
  simpa using h

/-- ANDing the complement of a set bit removes exactly one set bit. -/
theorem bitCountByte_and_inv (n j : Nat) (hj : j < 8)
    (h : n.testBit j = true) :
    bitCountByte (n &&& ((2 ^ 8 - 1) ^^^ 2 ^ j)) + 1 = bitCountByte n := by
  unfold bitCountByte
  have hmem : j ∈ Finset.range 8 := Finset.mem_range.mpr hj
  rw [← Finset.sum_erase_add _ _ hmem, ← Finset.sum_erase_add _ _ hmem]
  have hsame : ∀ i ∈ (Finset.range 8).erase j,
      (if (n &&& ((2 ^ 8 - 1) ^^^ 2 ^ j)).testBit i then 1 else 0)
        = (if n.testBit i then (1 : Nat) else 0) := by
    intro i hi
    obtain ⟨hij, hir⟩ := Finset.mem_erase.mp hi
    have hji : j ≠ i := Ne.symm hij
    have hi8 : i < 8 := Finset.mem_range.mp hir
    simp [Nat.testBit_and, Nat.testBit_xor, Nat.testBit_two_pow_sub_one,
      Nat.testBit_two_pow, hji, hi8, testBit_255 i hi8]
  rw [Finset.sum_congr rfl hsame]
  have hjbit : (n &&& ((2 ^ 8 - 1) ^^^ 2 ^ j)).testBit j = false := by
    simp [Nat.testBit_and, Nat.testBit_xor, Nat.testBit_two_pow_sub_one,
      Nat.testBit_two_pow, hj, testBit_255 j hj]
  rw [hjbit, h]
  simp

/-- A `set_pixel` that is out of range or beyond the buffer is a no-op. -/
theorem set_pixel_noop (g : GridDims) (b : List Nat) (x y : Nat) (v : Bool)
    (h : x ≥ g.PIXEL_WIDTH ∨ y ≥ g.ROWS ∨ ¬ y * g.COLUMNS + x / 8 < b.length) :
    set_pixel g b x y v = b := by
  simp only [set_pixel, Nat.shiftRight_eq_div_pow]
  by_cases hg : x ≥ g.PIXEL_WIDTH ∨ y ≥ g.ROWS
  · rw [if_pos hg]
  · rw [if_neg hg, if_pos (by omega)]

/-- Setting a bit to `true` adds at most one set bit. -/
theorem bitCount_set_pixel_true_le (g : GridDims) (b : List Nat) (x y : Nat) :
    bitCount (set_pixel g b x y true) ≤ bitCount b + 1 := by
  by_cases h : x < g.PIXEL_WIDTH ∧ y < g.ROWS ∧ y * g.COLUMNS + x / 8 < b.length
  · rw [set_pixel_true_eq g b x y h.1 h.2.1 h.2.2]
    have heq := bitCount_set b (y * g.COLUMNS + x / 8)
      (b.getD (y * g.COLUMNS + x / 8) 0 ||| 2 ^ (7 - x % 8)) h.2.2
    have hle := bitCountByte_or_le (b.getD (y * g.COLUMNS + x / 8) 0) (7 - x % 8)
    omega
  · rw [set_pixel_noop g b x y true (by
      rcases Decidable.em (x < g.PIXEL_WIDTH) with hx | hx
      · rcases Decidable.em (y < g.ROWS) with hy | hy
        · right; right; tauto
        · right; left; omega
      · left; omega)]
    omega

/-- Clearing a bit that reads back `true` removes exactly one set bit. -/
theorem bitCount_set_pixel_false_lt (g : GridDims) (b : List Nat) (x y : Nat)
    (h : get_pixel g b x y = true) :
    bitCount (set_pixel g b x y false) + 1 ≤ bitCount b := by
  obtain ⟨hx, hy, hi, hbit⟩ := get_pixel_true_elim g b x y h
  rw [set_pixel_false_eq g b x y hx hy hi]
  have heq := bitCount_set b (y * g.COLUMNS + x / 8)
    (b.getD (y * g.COLUMNS + x / 8) 0 &&& ((2 ^ 8 - 1) ^^^ 2 ^ (7 - x % 8))) hi
  have hdec := bitCountByte_and_inv (b.getD (y * g.COLUMNS + x / 8) 0)
    (7 - x % 8) (by omega) hbit
  omega

/-- Clearing an occupied source bit and setting any destination bit never
increases the total set-bit count. -/
theorem bitCount_move_le (g : GridDims) (b : List Nat) (x y x' y' : Nat)
    (h : get_pixel g b x y = true) :
    bitCount (set_pixel g (set_pixel g b x y false) x' y' true) ≤ bitCount b := by
  have h1 := bitCount_set_pixel_true_le g (set_pixel g b x y false) x' y'
  have h2 := bitCount_set_pixel_false_lt g b x y h
  omega

/-- The gravity rule never increases the sand-plane set-bit count. -/
theorem update_pixel_mass (g : GridDims) (p : List Nat) (s : SimState)
    (x y : Nat) :
    bitCount (update_pixel_with_velocity g p s x y).1.sand_buffer
      ≤ bitCount s.sand_buffer := by
  simp only [update_pixel_with_velocity]
  split_ifs with h1 h2 h3 h4 h5
  · exact le_refl _
  · exact le_refl _
  · exact bitCount_move_le g s.sand_buffer x y x (y + 1)
      (by simpa [is_sand] using h1)
  · exact bitCount_move_le g s.sand_buffer x y (x - 1) (y + 1)
      (by simpa [is_sand] using h1)
  · exact bitCount_move_le g s.sand_buffer x y (x + 1) (y + 1)
      (by simpa [is_sand] using h1)
  · exact le_refl _

/-- The sand plane of `decay_write` is untouched. -/
theorem decay_write_sand (g : GridDims) (s : SimState)
    (velocity : SandVelocity) (x y : Nat) :
    (decay_write g s velocity x y).sand_buffer = s.sand_buffer := by
  simp only [decay_write]
  split <;> rfl

/-- The change mask of `decay_write` is untouched. -/
theorem decay_write_changed (g : GridDims) (s : SimState)
    (velocity : SandVelocity) (x y : Nat) :
    (decay_write g s velocity x y).changed_rows = s.changed_rows := by
  simp only [decay_write]
  split <;> rfl

/-- The horizontal move never increases the sand-plane set-bit count. -/
theorem horizontal_move_mass (g : GridDims) (p : List Nat) (s : SimState)
    (velocity : SandVelocity) (x y : Nat)
    (hsand : is_sand g s.sand_buffer x y = true) :
    bitCount (horizontal_move g p s velocity x y).1.sand_buffer
      ≤ bitCount s.sand_buffer := by
  simp only [horizontal_move]
  split_ifs <;>
    first
    | exact le_refl _
    | exact bitCount_move_le g s.sand_buffer x y _ y
        (by simpa [is_sand] using hsand)

/-- The fall step never increases the sand-plane set-bit count. -/
theorem fall_step_mass (g : GridDims) (p : List Nat) (s : SimState)
    (x y : Nat) :
    bitCount (fall_step g p s x y).sand_buffer ≤ bitCount s.sand_buffer := by
  simp only [fall_step]
  split_ifs <;> simpa using update_pixel_mass g p s x y

/-- One cell step never increases the sand-plane set-bit count. -/
theorem sand_cell_step_mass (g : GridDims) (p : List Nat) (s : SimState)
    (x y : Nat) :
    bitCount (sand_cell_step g p s x y).sand_buffer ≤ bitCount s.sand_buffer := by
  simp only [sand_cell_step]
  split_ifs with h1 hm
  · exact le_refl _
  · rw [decay_write_sand]
    exact horizontal_move_mass g p s _ x y (by simpa using h1)
  · rw [decay_write_sand]
    exact le_trans (fall_step_mass g p _ x y)
      (horizontal_move_mass g p s _ x y (by simpa using h1))

/-! ## Helper lemmas: behaviour of one cell step -/

/-- With `|vx| ≤ 2` the horizontal branch is skipped. -/
theorem horizontal_move_skip (g : GridDims) (p : List Nat) (s : SimState)
    (velocity : SandVelocity) (x y : Nat)
    (hv : ¬ 2 < velocity.vx.natAbs) :
    horizontal_move g p s velocity x y = (s, velocity, false) := by
  simp only [horizontal_move]
  rw [if_neg hv]

/-- When the horizontal branch reports no move, the state is untouched and
the local velocity is returned as read. -/
theorem horizontal_move_not_moved (g : GridDims) (p : List Nat) (s : SimState)
    (velocity : SandVelocity) (x y : Nat)
    (h : (horizontal_move g p s velocity x y).2.2 = false) :
    (horizontal_move g p s velocity x y).1 = s ∧
      (horizontal_move g p s velocity x y).2.1 = velocity := by
  revert h
  simp only [horizontal_move]
  split_ifs <;> simp

/-- A successful horizontal move marks exactly row `y`. -/
theorem horizontal_move_changed_of_moved (g : GridDims) (p : List Nat)
    (s : SimState) (velocity : SandVelocity) (x y : Nat)
    (h : (horizontal_move g p s velocity x y).2.2 = true) :
    (horizontal_move g p s velocity x y).1.changed_rows
      = s.changed_rows.set y true := by
  revert h
  simp only [horizontal_move]
  split_ifs <;> simp

/-- On the bottom row the gravity rule does nothing. -/
theorem update_pixel_bottom (g : GridDims) (p : List Nat) (s : SimState)
    (x y : Nat) (hy : y ≥ g.ROWS - 1) :
    update_pixel_with_velocity g p s x y = (s, false) := by
  simp only [update_pixel_with_velocity]
  split_ifs <;> first | rfl | omega

/-- When the gravity rule reports no fall, the state is untouched. -/
theorem update_pixel_not_fell (g : GridDims) (p : List Nat) (s : SimState)
    (x y : Nat) (h : (update_pixel_with_velocity g p s x y).2 = false) :
    (update_pixel_with_velocity g p s x y).1 = s := by
  revert h
  simp only [update_pixel_with_velocity]
  split_ifs <;> simp

/-- On the bottom row the fall step does nothing. -/
theorem fall_step_bottom (g : GridDims) (p : List Nat) (s : SimState)
    (x y : Nat) (hy : y ≥ g.ROWS - 1) : fall_step g p s x y = s := by
  simp only [fall_step]
  rw [update_pixel_bottom g p s x y hy]
  simp

/-- The decay write leaves every other cell's velocity unchanged. -/
theorem decay_write_vel_ne (g : GridDims) (s : SimState)
    (velocity : SandVelocity) (x y x' y' : Nat) (hne : x ≠ x' ∨ y ≠ y') :
    get_velocity g (decay_write g s velocity x y).velocity_buffer x' y'
      = get_velocity g s.velocity_buffer x' y' := by
  simp only [decay_write]
  split
  · exact get_set_velocity_ne g s.velocity_buffer x y _ x' y' hne
  · rfl

/-- A bottom-row cell whose stored `|vx|` is at most `2` is left in place
by one cell step: the sand plane and the change mask are untouched and only
the cell's own velocity may change (by decay). -/
theorem sand_cell_step_bottom (g : GridDims) (p : List Nat) (s : SimState)
    (x y : Nat) (hy : y + 1 = g.ROWS)
    (hv : ((get_velocity g s.velocity_buffer x y).vx).natAbs ≤ 2) :
    (sand_cell_step g p s x y).sand_buffer = s.sand_buffer ∧
    (sand_cell_step g p s x y).changed_rows = s.changed_rows ∧
    ∀ x', x' ≠ x →
      get_velocity g (sand_cell_step g p s x y).velocity_buffer x' y
        = get_velocity g s.velocity_buffer x' y := by
  by_cases h1 : is_sand g s.sand_buffer x y = false
  · simp only [sand_cell_step, if_pos h1]
    simp
  · have hred : sand_cell_step g p s x y
        = decay_write g s (get_velocity g s.velocity_buffer x y) x y := by
      simp only [sand_cell_step, if_neg h1]
      rw [horizontal_move_skip g p s _ x y (by omega)]
      simp [fall_step_bottom g p s x y (by omega)]
    rw [hred]
    refine ⟨decay_write_sand g s _ x y, decay_write_changed g s _ x y, ?_⟩
    intro x' hx'
    exact decay_write_vel_ne g s _ x y x' y (Or.inl (Ne.symm hx'))

/-- Scanning a duplicate-free batch of bottom-row cells, all with stored
`|vx| ≤ 2`, changes neither the sand plane nor the change mask. -/
theorem bottom_row_fold (g : GridDims) (p : List Nat) (y : Nat)
    (hy : y + 1 = g.ROWS) :
    ∀ (xs : List Nat), xs.Nodup → ∀ (s : SimState),
      (∀ x ∈ xs, ((get_velocity g s.velocity_buffer x y).vx).natAbs ≤ 2) →
      (List.foldl (fun t x => sand_cell_step g p t x y) s xs).sand_buffer
          = s.sand_buffer ∧
      (List.foldl (fun t x => sand_cell_step g p t x y) s xs).changed_rows
          = s.changed_rows := by
  intro xs
  induction xs with
  | nil => intro _ s _; exact ⟨rfl, rfl⟩
  | cons a l ih =>
      intro hnd s hv
      simp only [List.foldl_cons]
      obtain ⟨hs, hc, hvel⟩ :=
        sand_cell_step_bottom g p s a y hy (hv a (List.mem_cons_self _ _))
      have hv' : ∀ x ∈ l,
          ((get_velocity g (sand_cell_step g p s a y).velocity_buffer x y).vx).natAbs ≤ 2 := by
        intro x hx
        rw [hvel x (by
          intro he
          subst he
          exact (List.nodup_cons.mp hnd).1 hx)]
        exact hv x (List.mem_cons_of_mem _ hx)
      obtain ⟨h1, h2⟩ := ih (List.nodup_cons.mp hnd).2 _ hv'
      exact ⟨h1.trans hs, h2.trans hc⟩

/-- A full scan of the bottom row (with all stored `|vx| ≤ 2` there)
changes neither the sand plane nor the change mask. -/
theorem sand_row_step_bottom (g : GridDims) (p : List Nat) (s : SimState)
    (y : Nat) (hy : y + 1 = g.ROWS)
    (hv : ∀ x, ((get_velocity g s.velocity_buffer x y).vx).natAbs ≤ 2) :
    (sand_row_step g p s y).sand_buffer = s.sand_buffer ∧
    (sand_row_step g p s y).changed_rows = s.changed_rows := by
  exact bottom_row_fold g p y hy (List.range g.PIXEL_WIDTH)
    (List.nodup_range _) s (fun x _ => hv x)

/-- The gravity rule never clears a bit of the bottom row when run on a
cell of a different row (its clears stay in row `y`; its sets only add). -/
theorem update_pixel_keeps_bottom (g : GridDims)
    (hW : g.PIXEL_WIDTH ≤ 8 * g.COLUMNS) (p : List Nat) (s : SimState)
    (x y x0 : Nat) (hy : y ≠ g.ROWS - 1)
    (hb : get_pixel g s.sand_buffer x0 (g.ROWS - 1) = true) :
    get_pixel g (update_pixel_with_velocity g p s x y).1.sand_buffer
      x0 (g.ROWS - 1) = true := by
  simp only [update_pixel_with_velocity]
  split_ifs <;>
    first
    | exact hb
    | exact get_set_pixel_true_mono g hW _ _ _ x0 _
        (by
          rw [get_set_pixel_ne g hW s.sand_buffer x y false x0 (g.ROWS - 1)
            (Or.inr hy)]
          exact hb)

/-- The fall step never clears a bottom-row bit from a different row. -/
theorem fall_step_keeps_bottom (g : GridDims)
    (hW : g.PIXEL_WIDTH ≤ 8 * g.COLUMNS) (p : List Nat) (s : SimState)
    (x y x0 : Nat) (hy : y ≠ g.ROWS - 1)
    (hb : get_pixel g s.sand_buffer x0 (g.ROWS - 1) = true) :
    get_pixel g (fall_step g p s x y).sand_buffer x0 (g.ROWS - 1) = true := by
  simp only [fall_step]
  split <;> exact update_pixel_keeps_bottom g hW p s x y x0 hy hb

/-- The horizontal branch never clears a bottom-row bit from a different
row. -/
theorem horizontal_move_keeps_bottom (g : GridDims)
    (hW : g.PIXEL_WIDTH ≤ 8 * g.COLUMNS) (p : List Nat) (s : SimState)
    (velocity : SandVelocity) (x y x0 : Nat) (hy : y ≠ g.ROWS - 1)
    (hb : get_pixel g s.sand_buffer x0 (g.ROWS - 1) = true) :
    get_pixel g (horizontal_move g p s velocity x y).1.sand_buffer
      x0 (g.ROWS - 1) = true := by
  simp only [horizontal_move]
  split_ifs <;>
    first
    | exact hb
    | exact get_set_pixel_true_mono g hW _ _ _ x0 _
        (by
          rw [get_set_pixel_ne g hW s.sand_buffer x y false x0 (g.ROWS - 1)
            (Or.inr hy)]
          exact hb)

/-- One cell step on a row other than the bottom row never clears a
bottom-row bit. -/
theorem sand_cell_step_keeps_bottom (g : GridDims)
    (hW : g.PIXEL_WIDTH ≤ 8 * g.COLUMNS) (p : List Nat) (s : SimState)
    (x y x0 : Nat) (hy : y ≠ g.ROWS - 1)
    (hb : get_pixel g s.sand_buffer x0 (g.ROWS - 1) = true) :
    get_pixel g (sand_cell_step g p s x y).sand_buffer x0 (g.ROWS - 1)
      = true := by
  simp only [sand_cell_step]
  split_ifs with h1 hm
  · exact hb
  · rw [decay_write_sand]
    exact horizontal_move_keeps_bottom g hW p s _ x y x0 hy hb
  · rw [decay_write_sand]
    exact fall_step_keeps_bottom g hW p _ x y x0 hy
      (horizontal_move_keeps_bottom g hW p s _ x y x0 hy hb)

/-- A row scan on a row other than the bottom row never clears a
bottom-row bit. -/
theorem sand_row_step_keeps_bottom (g : GridDims)
    (hW : g.PIXEL_WIDTH ≤ 8 * g.COLUMNS) (p : List Nat) (s : SimState)
    (y x0 : Nat) (hy : y ≠ g.ROWS - 1)
    (hb : get_pixel g s.sand_buffer x0 (g.ROWS - 1) = true) :
    get_pixel g (sand_row_step g p s y).sand_buffer x0 (g.ROWS - 1) = true := by
  unfold sand_row_step
  exact foldl_inv_mem
    (fun t => get_pixel g t.sand_buffer x0 (g.ROWS - 1) = true) _ _ s
    (fun c a _ hc => sand_cell_step_keeps_bottom g hW p c a y x0 hy hc) hb

/-- A row scan never increases the sand-plane set-bit count. -/
theorem sand_row_step_mass (g : GridDims) (p : List Nat) (s : SimState)
    (y : Nat) :
    bitCount (sand_row_step g p s y).sand_buffer ≤ bitCount s.sand_buffer := by
  unfold sand_row_step
  exact foldl_inv_mem
    (fun t => bitCount t.sand_buffer ≤ bitCount s.sand_buffer) _ _ s
    (fun c a _ hc => le_trans (sand_cell_step_mass g p c a y) hc) (le_refl _)

/-! ## Claim C6 -/

/-- Claim C6: for every particle-plane, obstacle-plane and velocity state,
one full automaton pass (`update_sand_with_velocity`) never increases the
total number of set bits in the particle plane — particles only relocate
or stay, none is duplicated. -/
theorem pass_mass_nonincreasing (g : GridDims) (platform_buffer : List Nat)
    (s : SimState) :
    bitCount (update_sand_with_velocity g platform_buffer s).sand_buffer
      ≤ bitCount s.sand_buffer := by
  unfold update_sand_with_velocity
  exact foldl_inv_mem
    (fun t => bitCount t.sand_buffer ≤ bitCount s.sand_buffer) _ _ s
    (fun c a _ hc =>
      le_trans (sand_row_step_mass g platform_buffer c a) hc) (le_refl _)

/-! ## Claim C2 -/

/-- Counterexample to claim C2 as stated: a bottom-row particle at `(5,1)`
with stored `vx = 5` is moved horizontally by one automaton pass — the
occupancy bit set at `(5, height-1)` before the pass is cleared by it. -/
theorem bottom_row_particle_moves_cex :
    get_pixel grid8 stBottom.sand_buffer 5 (grid8.ROWS - 1) = true ∧
    get_pixel grid8
      (update_sand_with_velocity grid8 [0, 0] stBottom).sand_buffer
      5 (grid8.ROWS - 1) = false := by
  constructor
  · decide
  · set_option maxRecDepth 8000 in decide

set_option maxRecDepth 4000 in
/-- Claim C2 (amended): one automaton pass never moves a particle out of
the last row, provided every bottom-row cell's stored horizontal velocity
satisfies `|vx| ≤ 2` (the gravity rule never moves bottom-row particles;
only the horizontal-velocity rule, which fires when `|vx| > 2`, can).
Stated on the device grid: every occupancy bit set in the bottom row
before the pass is still set at the same coordinates after it. -/
theorem bottom_row_stable_of_small_velocity (platform_buffer : List Nat)
    (s : SimState) (x : Nat)
    (hv : ∀ x', ((get_velocity lcdDims s.velocity_buffer x'
      (lcdDims.ROWS - 1)).vx).natAbs ≤ 2)
    (hb : get_pixel lcdDims s.sand_buffer x (lcdDims.ROWS - 1) = true) :
    get_pixel lcdDims
      (update_sand_with_velocity lcdDims platform_buffer s).sand_buffer
      x (lcdDims.ROWS - 1) = true := by
  have hW : lcdDims.PIXEL_WIDTH ≤ 8 * lcdDims.COLUMNS := by decide
  have h240 : lcdDims.ROWS = 240 := rfl
  unfold update_sand_with_velocity
  have hrev : (List.range lcdDims.ROWS).reverse
      = (lcdDims.ROWS - 1) :: (List.range (lcdDims.ROWS - 1)).reverse := by
    rw [show lcdDims.ROWS = 239 + 1 from rfl, List.range_succ]
    simp
  rw [hrev]
  simp only [List.foldl_cons]
  obtain ⟨hs1, _⟩ := sand_row_step_bottom lcdDims platform_buffer s
    (lcdDims.ROWS - 1) (by decide) hv
  have hstep : ∀ (c : SimState) (a : Nat),
      a ∈ (List.range (lcdDims.ROWS - 1)).reverse →
      get_pixel lcdDims c.sand_buffer x (lcdDims.ROWS - 1) = true →
      get_pixel lcdDims
        (sand_row_step lcdDims platform_buffer c a).sand_buffer
        x (lcdDims.ROWS - 1) = true := by
    intro c a ha hc
    have ha' : a ≠ lcdDims.ROWS - 1 := by
      have h1 : a < lcdDims.ROWS - 1 :=
        List.mem_range.mp (List.mem_reverse.mp ha)
      omega
    exact sand_row_step_keeps_bottom lcdDims hW platform_buffer c a x ha' hc
  have hbase : get_pixel lcdDims
      (sand_row_step lcdDims platform_buffer s (lcdDims.ROWS - 1)).sand_buffer
      x (lcdDims.ROWS - 1) = true := by
    rw [hs1]
    exact hb
  exact foldl_inv_mem
    (fun t => get_pixel lcdDims t.sand_buffer x (lcdDims.ROWS - 1) = true)
    (sand_row_step lcdDims platform_buffer)
    ((List.range (lcdDims.ROWS - 1)).reverse)
    (sand_row_step lcdDims platform_buffer s (lcdDims.ROWS - 1))
    hstep hbase

set_option maxRecDepth 4000 in
/-- Witness for the amended claim C2: a concrete device-grid state with one
bottom-row particle at `(3, 239)` and an all-default velocity field. -/
theorem bottom_row_stable_witness :
    get_pixel lcdDims
      (update_sand_with_velocity lcdDims (List.replicate BUFFER_SIZE 0)
        bottomWitnessState).sand_buffer 3 (lcdDims.ROWS - 1) = true := by
  apply bottom_row_stable_of_small_velocity
  · intro x'
    simp only [bottomWitnessState]
    rw [get_velocity_nil]
    decide
  · simp only [bottomWitnessState]
    exact get_set_pixel_same lcdDims (List.replicate BUFFER_SIZE 0) 3
      (lcdDims.ROWS - 1) true (by decide) (by decide)
      (by rw [List.length_replicate]; decide)

/-! ## Claim C1 -/

/-- Counterexample to claim C1 as stated: the spec table demands 3 passes
for a density sample of 25, but `process_input` selects 2 (and has no
row-skip parameter at all). -/
theorem density_steps_at_25_cex : density_steps 25 ≠ 3 := by decide

/-- Claim C1 (amended): the pass-count selection in `process_input` maps
density samples 25, 26, 50, 51, 75, 76 to 2, 2, 2, 1, 1, 1 passes
respectively; in particular every density in 0–25 runs 2 passes.  There is
no row-skip lever: every pass visits all rows. -/
theorem density_steps_breakpoints :
    density_steps 25 = 2 ∧ density_steps 26 = 2 ∧ density_steps 50 = 2 ∧
    density_steps 51 = 1 ∧ density_steps 75 = 1 ∧ density_steps 76 = 1 ∧
    (∀ d : Fin 26, density_steps d = 2) := by decide

/-! ## Claim C3 -/

/-- Counterexample to claim C3 as stated: for `angle = 0`,
`prev_angle = 180` the rotation delta is exactly `-180`, which lies outside
the claimed half-open interval `(-180, 180]`. -/
theorem rotation_delta_neg180_cex :
    Platform.rotation_delta { x := 0, y := 0, angle := 0, prev_angle := 180 }
        = -180 ∧
    ¬ (-180 <
      Platform.rotation_delta
        { x := 0, y := 0, angle := 0, prev_angle := 180 }) := by
  constructor
  · decide
  · decide

/-- Claim C3 (amended): for stored angles in `[0, 360)` the rotation delta
is the signed shortest-path angular difference — it lies in the closed
interval `[-180, 180]` and is congruent to `angle - prev_angle` modulo
360.  The endpoint `-180` is attained, so the interval is closed, not
half-open. -/
theorem rotation_delta_range_shortest_path (p : Platform)
    (ha : p.angle < 360) (hp : p.prev_angle < 360) :
    -180 ≤ p.rotation_delta ∧ p.rotation_delta ≤ 180 ∧
    p.rotation_delta % 360 = ((p.angle : Int) - (p.prev_angle : Int)) % 360 := by
  simp only [Platform.rotation_delta]
  split_ifs <;> refine ⟨by omega, by omega, by omega⟩

/-- Witness for the amended claim C3 at `angle = 10`, `prev_angle = 350`
(the delta is `20`). -/
theorem rotation_delta_range_witness :
    -180 ≤ Platform.rotation_delta
        { x := 0, y := 0, angle := 10, prev_angle := 350 } ∧
    Platform.rotation_delta
        { x := 0, y := 0, angle := 10, prev_angle := 350 } ≤ 180 ∧
    Platform.rotation_delta
        { x := 0, y := 0, angle := 10, prev_angle := 350 } % 360
      = ((({ x := 0, y := 0, angle := 10, prev_angle := 350 } :
            Platform).angle : Int)
          - (({ x := 0, y := 0, angle := 10, prev_angle := 350 } :
            Platform).prev_angle : Int)) % 360 :=
  rotation_delta_range_shortest_path
    { x := 0, y := 0, angle := 10, prev_angle := 350 } (by decide) (by decide)

/-! ## Claim C9 -/

/-- Claim C9: on the mask `[F,T,T,F,F,T,F]` the dirty-region tracker emits
exactly the half-open row intervals `[1,3)` and `[5,6)`, in that order. -/
theorem dirty_interval_coalescing :
    update_screen_efficiently [false, true, true, false, false, true, false]
      = [(1, 3), (5, 6)] := by decide

/-! ## Claim C8 -/

/-- Claim C8: for any coordinate with `x ≥ width` or `y ≥ height` and any
buffer, `get_pixel` returns `false` and `set_pixel` leaves the buffer
entirely unchanged (both are total functions — no out-of-range index is
ever accessed). -/
theorem out_of_bounds_get_set_safe (b : List Nat) (x y : Nat) (v : Bool)
    (h : x ≥ lcdDims.PIXEL_WIDTH ∨ y ≥ lcdDims.ROWS) :
    get_pixel lcdDims b x y = false ∧ set_pixel lcdDims b x y v = b :=
  ⟨get_pixel_oob lcdDims b x y h, set_pixel_oob lcdDims b x y v h⟩

/-- Witness for claim C8 at `(400, 0)` — one past the last column. -/
theorem out_of_bounds_get_set_witness :
    get_pixel lcdDims [7] 400 0 = false ∧
    set_pixel lcdDims [7] 400 0 true = [7] :=
  out_of_bounds_get_set_safe [7] 400 0 true (Or.inl (by decide))

/-! ## Claim C7 -/

/-- Claim C7: for every in-bounds coordinate, every boolean and every
standard-size buffer, `set` followed by `get` at the same coordinate
returns the written value, the value read at every other in-bounds
coordinate is unchanged, and every byte other than the addressed one is
untouched. -/
theorem set_get_round_trip_and_frame (b : List Nat) (x y : Nat) (v : Bool)
    (hb : b.length = BUFFER_SIZE) (hx : x < lcdDims.PIXEL_WIDTH)
    (hy : y < lcdDims.ROWS) :
    get_pixel lcdDims (set_pixel lcdDims b x y v) x y = v ∧
    (∀ x' y', x' < lcdDims.PIXEL_WIDTH → y' < lcdDims.ROWS →
      (x', y') ≠ (x, y) →
      get_pixel lcdDims (set_pixel lcdDims b x y v) x' y'
        = get_pixel lcdDims b x' y') ∧
    (∀ i, i ≠ y * lcdDims.COLUMNS + x / 8 →
      (set_pixel lcdDims b x y v).getD i 0 = b.getD i 0) := by
  have hW : lcdDims.PIXEL_WIDTH ≤ 8 * lcdDims.COLUMNS := by decide
  have hi : y * lcdDims.COLUMNS + x / 8 < b.length := by
    rw [hb]
    have h2 : lcdDims.COLUMNS = 52 := rfl
    have h3 : lcdDims.ROWS = 240 := rfl
    have h4 : lcdDims.PIXEL_WIDTH = 400 := rfl
    have h5 : BUFFER_SIZE = 12480 := rfl
    rw [h2] at *
    omega
  refine ⟨get_set_pixel_same lcdDims b x y v hx hy hi, ?_, ?_⟩
  · intro x' y' _ _ hne
    apply get_set_pixel_ne lcdDims hW b x y v x' y'
    by_cases hxx : x = x'
    · right
      intro hyy
      exact hne (Prod.ext hxx.symm hyy.symm)
    · left
      exact hxx
  · intro i hi'
    cases v
    · rw [set_pixel_false_eq lcdDims b x y hx hy hi]
      exact getD_set_ne _ _ _ (Ne.symm hi')
    · rw [set_pixel_true_eq lcdDims b x y hx hy hi]
      exact getD_set_ne _ _ _ (Ne.symm hi')

/-- Witness for claim C7: write bit `(5, 7)` of a zeroed standard-size
buffer and read it back. -/
theorem set_get_round_trip_witness :
    get_pixel lcdDims
      (set_pixel lcdDims (List.replicate BUFFER_SIZE 0) 5 7 true) 5 7
      = true :=
  (set_get_round_trip_and_frame (List.replicate BUFFER_SIZE 0) 5 7 true
    (List.length_replicate _ _) (by decide) (by decide)).1

/-! ## Claim C4 -/

/-- The gravity rule never touches the change mask itself. -/
theorem update_pixel_changed (g : GridDims) (p : List Nat) (s : SimState)
    (x y : Nat) :
    (update_pixel_with_velocity g p s x y).1.changed_rows = s.changed_rows := by
  simp only [update_pixel_with_velocity]
  split_ifs <;> rfl

/-- Counterexample to claim C4 as stated: on an 8×2 grid a lone particle
falls from `(3,0)` to `(3,1)` during one pass, yet only source row 0 is
marked — the destination row 1 (the immediate vertical neighbour) is not
marked in the dirty-row mask. -/
theorem changed_rows_destination_not_marked_cex :
    get_pixel grid8
      (update_sand_with_velocity grid8 [0, 0]
        { sand_buffer := [0x10, 0x00]
          velocity_buffer := []
          changed_rows := [false, false] }).sand_buffer 3 1 = true ∧
    (update_sand_with_velocity grid8 [0, 0]
        { sand_buffer := [0x10, 0x00]
          velocity_buffer := []
          changed_rows := [false, false] }).changed_rows.getD 1 false
      = false := by
  constructor
  · decide
  · decide

/-- Claim C4 (amended): during an automaton pass, a cell step at `(x, y)`
marks the dirty-row mask only at the source row `y`: the mask is either
unchanged or set at `y`, and whenever the step changes the sand plane the
mask is set at `y`.  Vertical neighbours — in particular the destination
row `y + 1` of a downward move — are not marked. -/
theorem changed_rows_only_source_row (g : GridDims) (p : List Nat)
    (s : SimState) (x y : Nat) :
    ((sand_cell_step g p s x y).changed_rows = s.changed_rows ∨
     (sand_cell_step g p s x y).changed_rows = s.changed_rows.set y true) ∧
    ((sand_cell_step g p s x y).sand_buffer ≠ s.sand_buffer →
     (sand_cell_step g p s x y).changed_rows = s.changed_rows.set y true) := by
  simp only [sand_cell_step]
  split_ifs with h1 hm
  · exact ⟨Or.inl rfl, fun hne => absurd rfl hne⟩
  · constructor
    · right
      rw [decay_write_changed]
      exact horizontal_move_changed_of_moved g p s _ x y hm
    · intro _
      rw [decay_write_changed]
      exact horizontal_move_changed_of_moved g p s _ x y hm
  · obtain ⟨he1, he2⟩ :=
      horizontal_move_not_moved g p s _ x y (by simpa using hm)
    rw [decay_write_changed, decay_write_sand, he1]
    simp only [fall_step]
    by_cases hf : (update_pixel_with_velocity g p s x y).2 = true
    · rw [if_pos hf]
      constructor
      · right
        show (update_pixel_with_velocity g p s x y).1.changed_rows.set y true
          = s.changed_rows.set y true
        rw [update_pixel_changed]
      · intro _
        show (update_pixel_with_velocity g p s x y).1.changed_rows.set y true
          = s.changed_rows.set y true
        rw [update_pixel_changed]
    · rw [if_neg hf]
      have hr1 := update_pixel_not_fell g p s x y (by simpa using hf)
      rw [hr1]
      exact ⟨Or.inl rfl, fun hne => absurd rfl hne⟩

/-- Witness for the amended claim C4: the falling particle at `(3, 0)`
marks exactly row 0. -/
theorem changed_rows_only_source_row_witness :
    (sand_cell_step grid8 [0, 0]
        { sand_buffer := [0x10, 0x00]
          velocity_buffer := []
          changed_rows := [false, false] } 3 0).changed_rows
      = ([false, false] : List Bool).set 0 true :=
  (changed_rows_only_source_row grid8 [0, 0]
    { sand_buffer := [0x10, 0x00]
      velocity_buffer := []
      changed_rows := [false, false] } 3 0).2 (by decide)

/-! ## Claim C5 -/

set_option maxRecDepth 8000 in
/-- Claim C5: the per-cell gravity rule tries, in strict priority order,
straight down, then down-left (if `x > 0`), then down-right (if
`x < width - 1`), moving into the first destination that has neither a
particle nor an obstacle bit by clearing the source bit and setting the
destination bit; if all three are blocked the particle stays.
Consequently a lone particle at `(10, 0)` on an empty obstacle-free grid
is at `(10, 1)` after one pass, and with `(10, 1)` and `(9, 1)` solid but
`(11, 1)` free one pass moves it to `(11, 1)`. -/
theorem gravity_rule_priority_and_scenarios :
    (∀ (g : GridDims) (platform_buffer : List Nat) (s : SimState) (x y : Nat),
      is_sand g s.sand_buffer x y = true → y + 1 < g.ROWS →
      ((is_solid g s.sand_buffer platform_buffer x (y + 1) = false →
        (update_pixel_with_velocity g platform_buffer s x y).1.sand_buffer
          = set_pixel g (set_pixel g s.sand_buffer x y false) x (y + 1) true ∧
        (update_pixel_with_velocity g platform_buffer s x y).2 = true) ∧
       (is_solid g s.sand_buffer platform_buffer x (y + 1) = true →
        0 < x →
        is_solid g s.sand_buffer platform_buffer (x - 1) (y + 1) = false →
        (update_pixel_with_velocity g platform_buffer s x y).1.sand_buffer
          = set_pixel g (set_pixel g s.sand_buffer x y false) (x - 1) (y + 1)
              true ∧
        (update_pixel_with_velocity g platform_buffer s x y).2 = true) ∧
       (is_solid g s.sand_buffer platform_buffer x (y + 1) = true →
        (x = 0 ∨
          is_solid g s.sand_buffer platform_buffer (x - 1) (y + 1) = true) →
        x < g.PIXEL_WIDTH - 1 →
        is_solid g s.sand_buffer platform_buffer (x + 1) (y + 1) = false →
        (update_pixel_with_velocity g platform_buffer s x y).1.sand_buffer
          = set_pixel g (set_pixel g s.sand_buffer x y false) (x + 1) (y + 1)
              true ∧
        (update_pixel_with_velocity g platform_buffer s x y).2 = true) ∧
       (is_solid g s.sand_buffer platform_buffer x (y + 1) = true →
        (x = 0 ∨
          is_solid g s.sand_buffer platform_buffer (x - 1) (y + 1) = true) →
        (¬ x < g.PIXEL_WIDTH - 1 ∨
          is_solid g s.sand_buffer platform_buffer (x + 1) (y + 1) = true) →
        (update_pixel_with_velocity g platform_buffer s x y).1 = s ∧
        (update_pixel_with_velocity g platform_buffer s x y).2 = false))) ∧
    (get_pixel scenarioDims
        (update_sand_with_velocity scenarioDims (List.replicate 12 0)
          scenarioState).sand_buffer 10 1 = true ∧
      get_pixel scenarioDims
        (update_sand_with_velocity scenarioDims (List.replicate 12 0)
          scenarioState).sand_buffer 10 0 = false) ∧
    (get_pixel scenarioDims
        (update_sand_with_velocity scenarioDims scenarioBlocked
          scenarioState).sand_buffer 11 1 = true ∧
      get_pixel scenarioDims
        (update_sand_with_velocity scenarioDims scenarioBlocked
          scenarioState).sand_buffer 10 0 = false) := by
  refine ⟨?_, by constructor <;> decide, by constructor <;> decide⟩
  intro g platform_buffer s x y hs hy
  have hguard1 : ¬ is_sand g s.sand_buffer x y = false := by simp [hs]
  have hguard2 : ¬ y ≥ g.ROWS - 1 := by omega
  refine ⟨?_, ?_, ?_, ?_⟩
  · intro hdown
    simp only [update_pixel_with_velocity]
    rw [if_neg hguard1, if_neg hguard2, if_pos hdown]
    exact ⟨rfl, rfl⟩
  · intro hdown hx hdl
    simp only [update_pixel_with_velocity]
    rw [if_neg hguard1, if_neg hguard2, if_neg (by simp [hdown]),
      if_pos ⟨hx, hdl⟩]
    exact ⟨rfl, rfl⟩
  · intro hdown hdl hx hdr
    simp only [update_pixel_with_velocity]
    rw [if_neg hguard1, if_neg hguard2, if_neg (by simp [hdown]),
      if_neg (by
        rintro ⟨hx0, hdl0⟩
        rcases hdl with h | h
        · omega
        · rw [h] at hdl0
          exact absurd hdl0 (by decide)),
      if_pos ⟨hx, hdr⟩]
    exact ⟨rfl, rfl⟩
  · intro hdown hdl hdr
    simp only [update_pixel_with_velocity]
    rw [if_neg hguard1, if_neg hguard2, if_neg (by simp [hdown]),
      if_neg (by
        rintro ⟨hx0, hdl0⟩
        rcases hdl with h | h
        · omega
        · rw [h] at hdl0
          exact absurd hdl0 (by decide)),
      if_neg (by
        rintro ⟨hx1, hdr0⟩
        rcases hdr with h | h
        · exact h hx1
        · rw [h] at hdr0
          exact absurd hdr0 (by decide))]
    exact ⟨rfl, rfl⟩

set_option maxRecDepth 8000 in
/-- Witness for claim C5: on the scenario grid the first (straight-down)
case of the priority rule fires for the lone particle at `(10, 0)`. -/
theorem gravity_rule_priority_witness :
    (update_pixel_with_velocity scenarioDims (List.replicate 12 0)
        scenarioState 10 0).1.sand_buffer
      = set_pixel scenarioDims
          (set_pixel scenarioDims scenarioState.sand_buffer 10 0 false) 10 1
          true ∧
    (update_pixel_with_velocity scenarioDims (List.replicate 12 0)
        scenarioState 10 0).2 = true :=
  ((gravity_rule_priority_and_scenarios.1 scenarioDims (List.replicate 12 0)
    scenarioState 10 0 (by decide) (by decide)).1) (by decide)

/-! ## Claim C10 -/

/-- Truncation toward zero keeps a value of `[-20, 20]` in `[-20, 20]`. -/
theorem truncQ_range_of_bounds (q : ℚ) (hlo : -20 ≤ q) (hhi : q ≤ 20) :
    -20 ≤ truncQ q ∧ truncQ q ≤ 20 := by
  have h20 : Int.floor ((20 : ℚ)) = 20 := by norm_num
  unfold truncQ
  split_ifs with h
  · have h1 : -q ≤ 20 := by linarith
    have h3 := Int.floor_le_floor (α := ℚ) h1
    have h4 := Int.floor_nonneg.mpr (by linarith : (0 : ℚ) ≤ -q)
    omega
  · have h3 := Int.floor_le_floor (α := ℚ) hhi
    have h4 := Int.floor_nonneg.mpr (le_of_not_lt h)
    omega

/-- The clamp lands in `[-20, 20]`. -/
theorem clampQ_mem (q : ℚ) :
    -20 ≤ clampQ q (-20) 20 ∧ clampQ q (-20) 20 ≤ 20 := by
  unfold clampQ
  split_ifs with h1 h2
  · norm_num
  · norm_num
  · exact ⟨le_of_not_lt h1, le_of_not_lt h2⟩

/-- The clamp-then-truncate pipeline lands in `[-20, 20]`. -/
theorem truncQ_clamp_range (q : ℚ) :
    -20 ≤ truncQ (clampQ q (-20) 20) ∧ truncQ (clampQ q (-20) 20) ≤ 20 :=
  truncQ_range_of_bounds _ (clampQ_mem q).1 (clampQ_mem q).2

/-- A single clamped velocity write at a sand cell within the force radius
of an in-bounds sampled line point preserves the invariant. -/
theorem forcesInv_write (g : GridDims) (linePts : Platform → Nat → Int × Int)
    (platforms : List Platform) (sand_buffer : List Nat)
    (velocity_buffer : List SandVelocity) (platform : Platform)
    (hmem : platform ∈ platforms)
    (hdelta : 1 ≤ platform.rotation_delta.natAbs) (i : Nat) (hi : i < 30)
    (hpp : 0 ≤ (linePts platform i).1 ∧ 0 ≤ (linePts platform i).2 ∧
      (linePts platform i).1 < (g.PIXEL_WIDTH : Int) ∧
      (linePts platform i).2 < (g.ROWS : Int))
    (dx dy : Int) (st : List Nat × List SandVelocity)
    (hInv : forcesInv g linePts platforms sand_buffer velocity_buffer st)
    (hcond : 0 ≤ (linePts platform i).1 + dx ∧ 0 ≤ (linePts platform i).2 + dy ∧
      (linePts platform i).1 + dx < (g.PIXEL_WIDTH : Int) ∧
      (linePts platform i).2 + dy < (g.ROWS : Int) ∧
      is_sand g st.1 ((linePts platform i).1 + dx).toNat
        ((linePts platform i).2 + dy).toNat = true)
    (hdist : dx * dx + dy * dy ≤ 8 * 8) (w : SandVelocity)
    (hw1 : -20 ≤ w.vx) (hw2 : w.vx ≤ 20) (hw3 : -20 ≤ w.vy) (hw4 : w.vy ≤ 20) :
    forcesInv g linePts platforms sand_buffer velocity_buffer
      (st.1, set_velocity g st.2 ((linePts platform i).1 + dx).toNat
        ((linePts platform i).2 + dy).toNat w) := by
  obtain ⟨hs, hvel⟩ := hInv
  obtain ⟨hc1, hc2, hc3, hc4, hc5⟩ := hcond
  refine ⟨hs, ?_⟩
  intro x y
  have hXW : ((linePts platform i).1 + dx).toNat < g.PIXEL_WIDTH := by omega
  have hYR : ((linePts platform i).2 + dy).toNat < g.ROWS := by omega
  by_cases hxy : x = ((linePts platform i).1 + dx).toNat ∧
      y = ((linePts platform i).2 + dy).toNat
  · by_cases hlen : ((linePts platform i).2 + dy).toNat * g.PIXEL_WIDTH
        + ((linePts platform i).1 + dx).toNat < st.2.length
    · right
      rw [hxy.1, hxy.2,
        get_set_velocity_same g st.2 _ _ w hXW hYR hlen]
      refine ⟨?_, ?_, hw1, hw2, hw3, hw4⟩
      · rw [hs] at hc5
        exact hc5
      · refine ⟨platform, hmem, hdelta, i, hi, hpp, ?_⟩
        have hx1 : ((((linePts platform i).1 + dx).toNat : Nat) : Int)
            = (linePts platform i).1 + dx := by omega
        have hy1 : ((((linePts platform i).2 + dy).toNat : Nat) : Int)
            = (linePts platform i).2 + dy := by omega
        rw [hx1, hy1]
        have hdx : (linePts platform i).1 + dx - (linePts platform i).1 = dx := by
          ring
        have hdy : (linePts platform i).2 + dy - (linePts platform i).2 = dy := by
          ring
        rw [hdx, hdy]
        exact hdist
    · rw [set_velocity_noop g st.2 _ _ w (Or.inr (Or.inr hlen))]
      exact hvel x y
  · rw [get_set_velocity_ne g st.2 _ _ w x y (by tauto)]
    exact hvel x y

/-- Claim C10: force propagation from rotating platforms never modifies
the particle occupancy plane — the sand buffer comes back byte-for-byte
unchanged — and the only velocity cells that may change are those of cells
currently holding sand within the force radius (8 px, Euclidean) of an
in-bounds sampled point of a rotating platform's line; every changed
velocity component lies within `[-20, 20]`.  Proved for all values of the
abstracted float behaviours (`linePts`, `perpF`, `addF`), hence for the
concrete `libm`/`f32` arithmetic in particular. -/
theorem apply_platform_forces_frame_and_clamp (g : GridDims)
    (linePts : Platform → Nat → Int × Int) (perpF : Platform → Int → ℚ × ℚ)
    (addF : Int → ℚ → ℚ) (sand_buffer : List Nat)
    (velocity_buffer : List SandVelocity) (platforms : List Platform) :
    (apply_platform_forces g linePts perpF addF sand_buffer velocity_buffer
        platforms).1 = sand_buffer ∧
    ∀ x y : Nat,
      get_velocity g
          (apply_platform_forces g linePts perpF addF sand_buffer
            velocity_buffer platforms).2 x y
        = get_velocity g velocity_buffer x y ∨
      (is_sand g sand_buffer x y = true ∧
        nearRotatingLine g linePts platforms x y ∧
        -20 ≤ (get_velocity g
          (apply_platform_forces g linePts perpF addF sand_buffer
            velocity_buffer platforms).2 x y).vx ∧
        (get_velocity g
          (apply_platform_forces g linePts perpF addF sand_buffer
            velocity_buffer platforms).2 x y).vx ≤ 20 ∧
        -20 ≤ (get_velocity g
          (apply_platform_forces g linePts perpF addF sand_buffer
            velocity_buffer platforms).2 x y).vy ∧
        (get_velocity g
          (apply_platform_forces g linePts perpF addF sand_buffer
            velocity_buffer platforms).2 x y).vy ≤ 20) := by
  have main : forcesInv g linePts platforms sand_buffer velocity_buffer
      (apply_platform_forces g linePts perpF addF sand_buffer velocity_buffer
        platforms) := by
    unfold apply_platform_forces
    apply foldl_inv_mem
      (forcesInv g linePts platforms sand_buffer velocity_buffer)
    · intro c platform hmem hc
      dsimp only
      split_ifs with hrot
      · exact hc
      · have hdelta : 1 ≤ platform.rotation_delta.natAbs := by omega
        apply foldl_inv_mem
          (forcesInv g linePts platforms sand_buffer velocity_buffer)
        · intro c2 i hi2 hc2
          dsimp only
          split_ifs with hpp
          · apply foldl_inv_mem
              (forcesInv g linePts platforms sand_buffer velocity_buffer)
            · intro c3 dy _ hc3
              apply foldl_inv_mem
                (forcesInv g linePts platforms sand_buffer velocity_buffer)
              · intro c4 dx _ hc4
                dsimp only
                split_ifs with hcond hdist
                · exact forcesInv_write g linePts platforms sand_buffer
                    velocity_buffer platform hmem hdelta i
                    (List.mem_range.mp hi2) hpp dx dy c4 hc4
                    ⟨hcond.1, hcond.2.1, hcond.2.2.1, hcond.2.2.2.1,
                      hcond.2.2.2.2⟩ hdist _
                    (truncQ_clamp_range _).1 (truncQ_clamp_range _).2
                    (truncQ_clamp_range _).1 (truncQ_clamp_range _).2
                · exact hc4
                · exact hc4
              · exact hc3
            · exact hc2
          · exact hc2
        · exact hc
    · exact ⟨rfl, fun x y => Or.inl rfl⟩
  obtain ⟨h1, h2⟩ := main
  exact ⟨h1, h2⟩
